import Mathlib

/-! Shallow embedding of the chess.com dashboard brain (src/chesscom.py):
date parsing and archive selection, the record normalizer with its outcome
classifier, and the four aggregators (daily, interval milestones, weekly,
rating distribution), together with theorems settling the specification
claims against these definitions.

Conventions: machine timestamps are epoch seconds as `Int` (the script's
local timezone is modelled as UTC); pandas dataframes are lists of rows;
floating-point means are modelled as exact rationals; Python `round` is
round-half-to-even. -/

namespace Chesscom

/-! ### Calendar dates and epoch arithmetic -/

/-- A calendar date, as produced by `datetime.strptime(s, "%Y-%m-%d")`. -/
structure Date where
  year : Nat
  month : Nat
  day : Nat
  deriving Repr, DecidableEq

def isLeapYear (y : Nat) : Bool :=
  y % 4 == 0 && (y % 100 != 0 || y % 400 == 0)

def daysInMonth (y m : Nat) : Nat :=
  if m = 2 then (if isLeapYear y then 29 else 28)
  else if m = 4 ∨ m = 6 ∨ m = 9 ∨ m = 11 then 30
  else 31

/-- Split a character list at every dash, like `str.split("-")`. -/
def splitDash : List Char → List (List Char)
  | [] => [[]]
  | c :: cs =>
    match c == '-', splitDash cs with
    | true, rest => [] :: rest
    | false, [] => [[c]]
    | false, g :: gs => (c :: g) :: gs

/-- Numeric value of a digit string. -/
def digitsVal (cs : List Char) : Nat :=
  cs.foldl (fun n c => 10 * n + (c.toNat - 48)) 0

/-- Model of `datetime.strptime(s, "%Y-%m-%d")`: four year digits, one or
two month digits in 1..12, one or two day digits valid for the month;
anything else raises `ValueError`, modelled as `none`. -/
def parseDate (s : String) : Option Date :=
  match splitDash s.data with
  | [ys, ms, ds] =>
    if ys.length = 4 ∧ ys.all Char.isDigit ∧
        1 ≤ ms.length ∧ ms.length ≤ 2 ∧ ms.all Char.isDigit ∧
        1 ≤ ds.length ∧ ds.length ≤ 2 ∧ ds.all Char.isDigit then
      let y := digitsVal ys
      let m := digitsVal ms
      let d := digitsVal ds
      if 1 ≤ y ∧ 1 ≤ m ∧ m ≤ 12 ∧ 1 ≤ d ∧ d ≤ daysInMonth y m then
        some ⟨y, m, d⟩
      else none
    else none
  | _ => none

/-- Days since 1970-01-01 of a civil date (standard civil-from-days
algorithm; all divisions act on nonnegative operands for years ≥ 1). -/
def daysFromCivil (dt : Date) : Int :=
  let y : Int := if dt.month ≤ 2 then (dt.year : Int) - 1 else (dt.year : Int)
  let era : Int := (if 0 ≤ y then y else y - 399) / 400
  let yoe : Int := y - era * 400
  let mp : Int := ((dt.month : Int) + 9) % 12
  let doy : Int := (153 * mp + 2) / 5 + (dt.day : Int) - 1
  let doe : Int := yoe * 365 + yoe / 4 - yoe / 100 + doy
  era * 146097 + doe - 719468

/-- Model of `datetime(...).timestamp()`: epoch seconds of local midnight. -/
def dateTimestamp (dt : Date) : Int :=
  86400 * daysFromCivil dt

/-! ### Raw input and canonical records -/

/-- One side of a raw chess.com game (`game['white']` / `game['black']`). -/
structure Side where
  username : String
  rating : Int
  result : String
  deriving Repr, DecidableEq

/-- A raw match as returned by a monthly archive. `time_class` and `rules`
are read with `.get`, so they may be absent; the other fields are indexed
directly. -/
structure RawGame where
  end_time : Int
  time_class : Option String
  rules : Option String
  white : Side
  black : Side
  deriving Repr, DecidableEq

/-- A row of the canonical history dataframe: columns `Date` (kept as the
epoch timestamp underlying the datetime), `Rating`, `Mode`, `Status`,
`Is960`. -/
structure MatchRecord where
  timestamp : Int
  rating : Int
  mode : String
  status : String
  is960 : Bool
  deriving Repr, DecidableEq

/-- Python `str.lower` (ASCII). -/
def pyLower (s : String) : String :=
  String.mk (s.data.map Char.toLower)

/-- Python `str.capitalize`: first character uppercased, rest lowercased. -/
def pyCapitalize (s : String) : String :=
  match s.data with
  | [] => ""
  | c :: cs => String.mk (c.toUpper :: cs.map Char.toLower)

/-- The outcome classification of lines 96-103: start from `'Draw'`, the
first group maps to `Win`/`Draw`, the second to `Loss`, anything else keeps
the `'Draw'` default. -/
def classify (res : String) : String :=
  if res ∈ ["win", "agreed", "repetition", "stalemate", "insufficient_material",
      "50move", "timevsinsufficientmaterial"] then
    if res = "win" then "Win" else "Draw"
  else if res ∈ ["checkmated", "resigned", "timeout", "abandoned"] then "Loss"
  else "Draw"

/-- The per-game body of the normalization loop (lines 78-116): discard
games ending before the cutoff, default missing rules to `'chess'`, keep
only the four recognized time classes, pick the subject's side by
case-insensitive username match against white, and build the record. -/
def normalize (username : String) (startTs : Int) (g : RawGame) : Option MatchRecord :=
  if g.end_time < startTs then none
  else
    match g.time_class with
    | none => none
    | some tc =>
      if tc ∈ ["rapid", "blitz", "bullet", "daily"] then
        some { timestamp := g.end_time,
               rating := (if pyLower g.white.username = pyLower username then
                 g.white else g.black).rating,
               mode := pyCapitalize tc ++
                 (if g.rules.getD "chess" == "chess960" then "960" else ""),
               status := classify (if pyLower g.white.username = pyLower username then
                 g.white else g.black).result,
               is960 := g.rules.getD "chess" == "chess960" }
      else none

/-! ### Archive selection and the full run -/

/-- One monthly archive reference, identified by the year and month parsed
from the last two URL components. -/
structure ArchiveRef where
  year : Nat
  month : Nat
  deriving Repr, DecidableEq

/-- The archive filtering loop of lines 62-68. -/
def selectArchives (refs : List ArchiveRef) (start : Date) : List ArchiveRef :=
  refs.foldl (fun acc r =>
    if start.year < r.year ∨ (r.year = start.year ∧ start.month ≤ r.month) then acc ++ [r]
    else acc) []

/-- The external fetch collaborators: the archive index (`none` models a
failed or empty index fetch) and the per-month game fetch (`none` models a
failed month, which the loop skips). -/
structure FetchEnv where
  archives : Option (List ArchiveRef)
  games : ArchiveRef → Option (List RawGame)

/-- Result of one run of `process_all_modes`: the returned dataframe rows,
plus instrumentation recording whether the archive index was requested and
which monthly archives were requested. -/
structure RunResult where
  records : List MatchRecord
  indexFetched : Bool
  monthsFetched : List ArchiveRef
  deriving Repr

/-- Records contributed by one monthly archive (a failed fetch contributes
nothing, the loop `continue`s). -/
def monthRecords (env : FetchEnv) (username : String) (startTs : Int)
    (ref : ArchiveRef) : List MatchRecord :=
  match env.games ref with
  | none => []
  | some gs => gs.filterMap (normalize username startTs)

/-- `process_all_modes` (lines 45-118). An unparseable start date prints an
error and returns the empty dataframe before the archive index is fetched;
a missing index returns the empty dataframe; otherwise every relevant
month is fetched and normalized in order. -/
def processAllModes (username startDateStr : String) (env : FetchEnv) : RunResult :=
  match parseDate startDateStr with
  | none => { records := [], indexFetched := false, monthsFetched := [] }
  | some d =>
    match env.archives with
    | none => { records := [], indexFetched := true, monthsFetched := [] }
    | some allRefs =>
      { records := (selectArchives allRefs d).foldl
          (fun acc ref => acc ++ monthRecords env username (dateTimestamp d) ref) [],
        indexFetched := true,
        monthsFetched := selectArchives allRefs d }

/-! ### Shared aggregation helpers -/

/-- Local calendar day of a record (`Date.dt.date`), as days since epoch. -/
def localDay (r : MatchRecord) : Int :=
  r.timestamp.fdiv 86400

/-- Python `round` to an integer: round half to even. -/
def roundHalfEven (q : ℚ) : Int :=
  if q - ⌊q⌋ < 1 / 2 then ⌊q⌋
  else if 1 / 2 < q - ⌊q⌋ then ⌊q⌋ + 1
  else if ⌊q⌋ % 2 = 0 then ⌊q⌋ else ⌊q⌋ + 1

/-- `['Rating'].mean()` of a list of records, as an exact rational. -/
def ratingMean (rs : List MatchRecord) : ℚ :=
  (rs.map (fun r => (r.rating : ℚ))).sum / (rs.length : ℚ)

/-! ### Daily aggregator (create_overall_performance_chart, lines 121-139) -/

/-- Per-day overall series: group all records by calendar day (groupby
sorts its keys ascending), counting `Status == 'Win'` versus the rest. -/
def dailyStats (df : List MatchRecord) : List (Int × Nat × Nat) :=
  (List.insertionSort (fun a b : Int => a ≤ b) ((df.map localDay).dedup)).map (fun d =>
    (d, ((df.filter (fun r => localDay r == d)).filter (fun r => r.status == "Win")).length,
        ((df.filter (fun r => localDay r == d)).filter (fun r => r.status != "Win")).length))

/-! ### Interval milestone calculator (create_interval_table, lines 266-300) -/

/-- The game-count checkpoints `range(N, len+1, N)`. -/
def checkpoints (N total : Nat) : List Nat :=
  (List.range (total / N)).map (fun i => (i + 1) * N)

/-- One row of the interval statistics table. -/
structure IntervalRow where
  mode : String
  games : Nat
  avgRating : Int
  winPct : ℚ
  deriving Repr, DecidableEq

/-- Milestones of one mode, whose records `rs` are taken in sorted order:
at each checkpoint, the mean rating of the first `c` games rounded to an
integer, and the win percentage over those games. -/
def modeMilestones (mode : String) (rs : List MatchRecord) (N : Nat) : List IntervalRow :=
  (checkpoints N rs.length).map (fun c =>
    { mode := mode, games := c,
      avgRating := roundHalfEven (ratingMean (rs.take c)),
      winPct := (((rs.take c).filter (fun r => r.status == "Win")).length : ℚ) / (c : ℚ) * 100 })

/-- The `sort_values(['Mode', 'Date'])` order: by mode name, then by end
time within a mode. -/
def modeDateLe (a b : MatchRecord) : Prop :=
  a.mode < b.mode ∨ (a.mode = b.mode ∧ a.timestamp ≤ b.timestamp)

/-- String comparison decided through the character lists, so that terms
involving the sort reduce inside the kernel (the default instance's
`String.ltb` is well-founded recursion and does not). -/
instance (a b : String) : Decidable (a < b) :=
  decidable_of_iff (a.toList < b.toList) (String.lt_iff_toList_lt).symm

instance : DecidableRel modeDateLe := fun a b =>
  inferInstanceAs (Decidable (a.mode < b.mode ∨ (a.mode = b.mode ∧ a.timestamp ≤ b.timestamp)))

instance : IsTotal MatchRecord modeDateLe where
  total a b := by
    unfold modeDateLe
    rcases lt_trichotomy a.mode b.mode with h | h | h
    · exact Or.inl (Or.inl h)
    · rcases le_total a.timestamp b.timestamp with h2 | h2
      · exact Or.inl (Or.inr ⟨h, h2⟩)
      · exact Or.inr (Or.inr ⟨h.symm, h2⟩)
    · exact Or.inr (Or.inl h)

instance : IsTrans MatchRecord modeDateLe where
  trans a b c hab hbc := by
    unfold modeDateLe at *
    rcases hab with h1 | ⟨h1, h1t⟩
    · rcases hbc with h2 | ⟨h2, _⟩
      · exact Or.inl (h1.trans h2)
      · exact Or.inl (h2 ▸ h1)
    · rcases hbc with h2 | ⟨h2, h2t⟩
      · exact Or.inl (h1 ▸ h2)
      · exact Or.inr ⟨h1.trans h2, h1t.trans h2t⟩

/-- `filtered_df.sort_values(['Mode', 'Date'])`. -/
def sortModeDate (l : List MatchRecord) : List MatchRecord :=
  List.insertionSort modeDateLe l

/-- `filtered_df['Mode'].unique()`: mode names in order of first
appearance. -/
def uniqueModes (l : List MatchRecord) : List String :=
  l.foldl (fun acc r => if r.mode ∈ acc then acc else acc ++ [r.mode]) []

/-- One mode's rows of the variant-filtered, (Mode, Date)-sorted dataframe:
`mode_data = filtered_df[filtered_df['Mode'] == mode]`. -/
def perModeSorted (df : List MatchRecord) (b : Bool) (m : String) : List MatchRecord :=
  (sortModeDate (df.filter (fun r => r.is960 == b))).filter (fun r => r.mode == m)

/-- The numeric content of `create_interval_table`: filter to one variant,
sort by mode then date, and emit each mode's milestones in turn. -/
def intervalStats (df : List MatchRecord) (b : Bool) (N : Nat) : List IntervalRow :=
  (uniqueModes (sortModeDate (df.filter (fun r => r.is960 == b)))).flatMap
    (fun m => modeMilestones m (perModeSorted df b m) N)

/-! ### Weekly aggregator (create_weekly_stats_table, lines 366-397) -/

/-- `to_period('W').start_time` of a day: pandas weekly periods are
anchored `W-SUN` (Monday through Sunday), so the period start is the
Monday on or before the day. Day 4 (1970-01-05) was a Monday. -/
def weekStart (d : Int) : Int :=
  d - (d + 3) % 7

/-- The `Week` column value of a record. -/
def recordWeek (r : MatchRecord) : Int :=
  weekStart (localDay r)

/-- A day number falling on a Monday. -/
def isMonday (d : Int) : Prop :=
  (d + 3) % 7 = 0

/-- The fixed mode column order of the weekly table. -/
def modeList (b : Bool) : List String :=
  if b then ["Blitz960", "Bullet960", "Rapid960", "Daily960"]
  else ["Blitz", "Bullet", "Rapid", "Daily"]

/-- Numeric content of one weekly cell `"{games} ({win_pct:.1f}%) - {avg}"`. -/
structure WeekCell where
  games : Nat
  winPct : ℚ
  avgElo : Int
  deriving Repr, DecidableEq

/-- One weekly row: the week label and one cell per mode of the fixed mode
list, `none` standing for the `"-"` no-data marker. -/
structure WeeklyRow where
  week : Int
  cells : List (String × Option WeekCell)
  deriving Repr, DecidableEq

/-- The rows of one (week, mode) pair: the variant-filtered records of that
week and mode. -/
def weekModeData (df : List MatchRecord) (b : Bool) (w : Int) (m : String) : List MatchRecord :=
  ((df.filter (fun r => r.is960 == b)).filter (fun r => recordWeek r == w)).filter
    (fun r => r.mode == m)

/-- One cell of the weekly table: the numeric triple when the (week, mode)
pair has at least one game, otherwise the `"-"` marker. -/
def weekCellOf (df : List MatchRecord) (b : Bool) (w : Int) (m : String) : Option WeekCell :=
  if 0 < (weekModeData df b w m).length then
    some { games := (weekModeData df b w m).length,
           winPct := (((weekModeData df b w m).filter
               (fun r => r.status == "Win")).length : ℚ)
             / ((weekModeData df b w m).length : ℚ) * 100,
           avgElo := roundHalfEven (ratingMean (weekModeData df b w m)) }
  else none

/-- One row of the weekly table: the week label and one cell per mode. -/
def weeklyRowOf (df : List MatchRecord) (b : Bool) (w : Int) : WeeklyRow :=
  { week := w, cells := (modeList b).map (fun m => (m, weekCellOf df b w m)) }

/-- The numeric content of `create_weekly_stats_table`: weeks sorted most
recent first, one row per week, one entry per mode with an explicit
no-data marker when the (week, mode) pair has no games. -/
def weeklyStats (df : List MatchRecord) (b : Bool) : List WeeklyRow :=
  (List.insertionSort (fun a b : Int => b ≤ a)
      (((df.filter (fun r => r.is960 == b)).map recordWeek).dedup)).map
    (weeklyRowOf df b)

/-- The games count recorded in a weekly row for a mode (0 for the no-data
marker or a missing column). -/
def cellGames (m : String) (row : WeeklyRow) : Nat :=
  match List.lookup m row.cells with
  | some (some cell) => cell.games
  | _ => 0

/-! ### Distribution summarizer (create_rating_boxplot, lines 432-464) -/

/-- The fixed mode order of the boxplot. -/
def boxModeList (b : Bool) : List String :=
  if b then ["Rapid960", "Blitz960", "Bullet960", "Daily960"]
  else ["Rapid", "Blitz", "Bullet", "Daily"]

/-- The numeric content of `create_rating_boxplot`: for each mode of the
fixed list with at least one filtered record, its full rating sample;
modes without records contribute nothing. -/
def boxplotData (df : List MatchRecord) (b : Bool) : List (String × List Int) :=
  (boxModeList b).filterMap (fun m =>
    if 0 < ((df.filter (fun r => r.is960 == b)).filter (fun r => r.mode == m)).length then
      some (m, ((df.filter (fun r => r.is960 == b)).filter (fun r => r.mode == m)).map
        (fun r => r.rating))
    else none)

instance : IsTotal Int (fun a b : Int => b ≤ a) := ⟨fun a b => le_total b a⟩

instance : IsTrans Int (fun a b : Int => b ≤ a) := ⟨fun _ _ _ h1 h2 => le_trans h2 h1⟩

/-! ### Statement of the interval-milestone claim -/

/-- The interval-milestone property of one mode `m` whose variant-filtered
records, sorted ascending by timestamp, are `perModeSorted df b m`: the
table's rows for `m` are exactly that mode's milestones; milestones sit
exactly at the checkpoints `N, 2N, …` up to the game count; each reports
the mean rating of the first `c` sorted records rounded to a nearest
integer and the win percentage over them; fewer than `N` games yield no
milestones; 25 games with interval 10 yield checkpoints 10 and 20 only. -/
def c1Prop (df : List MatchRecord) (b : Bool) (N : Nat) (m : String) : Prop :=
  List.Sorted (fun a c : MatchRecord => a.timestamp ≤ c.timestamp) (perModeSorted df b m) ∧
  (intervalStats df b N).filter (fun row => row.mode == m)
    = modeMilestones m (perModeSorted df b m) N ∧
  (modeMilestones m (perModeSorted df b m) N).map (fun row => row.games)
    = checkpoints N (perModeSorted df b m).length ∧
  (∀ c, c ∈ checkpoints N (perModeSorted df b m).length ↔
    ∃ k, 1 ≤ k ∧ c = k * N ∧ c ≤ (perModeSorted df b m).length) ∧
  (∀ row ∈ modeMilestones m (perModeSorted df b m) N,
    row.avgRating = roundHalfEven (ratingMean ((perModeSorted df b m).take row.games)) ∧
    |ratingMean ((perModeSorted df b m).take row.games) - (row.avgRating : ℚ)| ≤ 1 / 2 ∧
    row.winPct = ((((perModeSorted df b m).take row.games).filter
        (fun r => r.status == "Win")).length : ℚ) / (row.games : ℚ) * 100) ∧
  ((perModeSorted df b m).length < N → modeMilestones m (perModeSorted df b m) N = []) ∧
  ((perModeSorted df b m).length = 25 →
    (modeMilestones m (perModeSorted df b m) 10).map (fun row => row.games) = [10, 20])

/-! ### Concrete sample data used by witnesses and counterexamples -/

/-- Four standard records, three Blitz and one Rapid. -/
def c1df : List MatchRecord :=
  [⟨1000, 800, "Blitz", "Win", false⟩,
   ⟨2000, 820, "Blitz", "Loss", false⟩,
   ⟨3000, 840, "Blitz", "Win", false⟩,
   ⟨1500, 900, "Rapid", "Draw", false⟩]

/-- A post-cutoff chess960 rapid game won by the subject. -/
def c3Game : RawGame :=
  { end_time := 1762000000, time_class := some "rapid", rules := some "chess960",
    white := ⟨"kxrook", 1200, "win"⟩, black := ⟨"opp", 1100, "checkmated"⟩ }

def c3Env : FetchEnv :=
  { archives := some [⟨2025, 11⟩], games := fun _ => some [c3Game] }

/-- The record that `c3Game` normalizes to. -/
def c3rec : MatchRecord :=
  ⟨1762000000, 1200, "Rapid960", "Win", true⟩

/-- A post-cutoff standard blitz game. -/
def c4Game : RawGame :=
  { end_time := 1762000000, time_class := some "blitz", rules := some "chess",
    white := ⟨"kxrook", 800, "win"⟩, black := ⟨"opp", 790, "checkmated"⟩ }

/-- An environment whose index and month fetches succeed with one game. -/
def c4Env : FetchEnv :=
  { archives := some [⟨2025, 11⟩], games := fun _ => some [c4Game] }

/-- An environment whose archive index fetch fails. -/
def c4EnvNone : FetchEnv :=
  { archives := none, games := fun _ => none }

/-- One standard Blitz win on day 20000. -/
def c6df : List MatchRecord :=
  [⟨1728000000, 800, "Blitz", "Win", false⟩]

/-- One standard Blitz win on day 20393 (its week starts on day 20388). -/
def c7df : List MatchRecord :=
  [⟨1761955200, 800, "Blitz", "Win", false⟩]

/-- One standard Blitz win. -/
def c8df : List MatchRecord :=
  [⟨1728000000, 800, "Blitz", "Win", false⟩]

/-- A raw game carrying no rules field at all. -/
def c9Game : RawGame :=
  { end_time := 500, time_class := some "rapid", rules := none,
    white := ⟨"kxrook", 1000, "win"⟩, black := ⟨"opp", 900, "resigned"⟩ }

/-- The record that `c9Game` normalizes to. -/
def c9rec : MatchRecord :=
  ⟨500, 1000, "Rapid", "Win", false⟩

/-! ### Helper lemmas -/

theorem length_filter_add_not {α : Type} (l : List α) (p : α → Bool) :
    (l.filter p).length + (l.filter (fun a => !(p a))).length = l.length := by
  induction l with
  | nil => rfl
  | cons a l ih =>
    cases hp : p a <;> simp only [List.filter_cons, hp, Bool.not_true, Bool.not_false,
      List.length_cons, cond_true, cond_false, if_pos, if_neg] <;> simp [hp] <;> omega

theorem sum_filter_key {α κ : Type} [BEq κ] [LawfulBEq κ] (key : α → κ) :
    ∀ (ks : List κ) (l : List α), ks.Nodup → (∀ a ∈ l, key a ∈ ks) →
      (ks.map (fun k => (l.filter (fun a => key a == k)).length)).sum = l.length := by
  intro ks
  induction ks with
  | nil =>
    intro l _ hcov
    cases l with
    | nil => rfl
    | cons a l => exact absurd (hcov a (by simp)) (by simp)
  | cons k ks ih =>
    intro l hnd hcov
    rw [List.nodup_cons] at hnd
    obtain ⟨hk, hksnd⟩ := hnd
    simp only [List.map_cons, List.sum_cons]
    have hmap : ks.map (fun k2 => (l.filter (fun a => key a == k2)).length)
        = ks.map (fun k2 =>
            ((l.filter (fun a => !(key a == k))).filter (fun a => key a == k2)).length) := by
      apply List.map_congr_left
      intro k2 hk2
      rw [List.filter_filter]
      apply congrArg List.length
      apply List.filter_congr
      intro a _
      cases hek : key a == k2 with
      | false => simp
      | true =>
        have he : key a = k2 := eq_of_beq hek
        have hne : (key a == k) = false := by
          apply beq_eq_false_iff_ne.mpr
          intro hkk
          have hkk2 : k = k2 := by rw [← hkk, he]
          exact hk (hkk2 ▸ hk2)
        simp [hne]
    have hcov2 : ∀ a ∈ l.filter (fun a => !(key a == k)), key a ∈ ks := by
      intro a ha
      rw [List.mem_filter] at ha
      have hmem := hcov a ha.1
      rcases List.mem_cons.mp hmem with h | h
      · exfalso
        have : (key a == k) = true := beq_iff_eq.mpr h
        rw [this] at ha
        simp at ha
      · exact h
    rw [hmap, ih _ hksnd hcov2]
    exact length_filter_add_not l _

theorem lookup_map_self {κ β : Type} [BEq κ] [LawfulBEq κ] (g : κ → β) (m : κ) :
    ∀ ks : List κ, ks.Nodup → m ∈ ks →
      List.lookup m (ks.map (fun k => (k, g k))) = some (g m) := by
  intro ks
  induction ks with
  | nil => intro _ h; simp at h
  | cons k ks ih =>
    intro hnd hm
    rw [List.nodup_cons] at hnd
    by_cases hmk : m = k
    · subst hmk
      simp [List.lookup]
    · have hm2 : m ∈ ks := by
        rcases List.mem_cons.mp hm with h | h
        · exact absurd h hmk
        · exact h
      have hbeq : (m == k) = false := beq_eq_false_iff_ne.mpr hmk
      simp only [List.map_cons, List.lookup, hbeq]
      exact ih hnd.2 hm2

theorem mem_foldl_append {α β : Type} (h : β → List α) :
    ∀ (l : List β) (acc : List α) (x : α),
      x ∈ l.foldl (fun a b => a ++ h b) acc ↔ x ∈ acc ∨ ∃ b ∈ l, x ∈ h b := by
  intro l
  induction l with
  | nil => intro acc x; simp
  | cons b l ih =>
    intro acc x
    simp only [List.foldl_cons]
    rw [ih]
    simp only [List.mem_append, List.mem_cons, or_assoc]
    constructor
    · rintro (h1 | h1 | ⟨c, hc, hx⟩)
      · exact Or.inl h1
      · exact Or.inr ⟨b, Or.inl rfl, h1⟩
      · exact Or.inr ⟨c, Or.inr hc, hx⟩
    · rintro (h1 | ⟨c, rfl | hc, hx⟩)
      · exact Or.inl h1
      · exact Or.inr (Or.inl hx)
      · exact Or.inr (Or.inr ⟨c, hc, hx⟩)

theorem uniqueModes_nodup_aux :
    ∀ (l : List MatchRecord) (acc : List String), acc.Nodup →
      (l.foldl (fun acc r => if r.mode ∈ acc then acc else acc ++ [r.mode]) acc).Nodup := by
  intro l
  induction l with
  | nil => intro acc h; exact h
  | cons r l ih =>
    intro acc h
    simp only [List.foldl_cons]
    by_cases hc : r.mode ∈ acc
    · rw [if_pos hc]; exact ih acc h
    · rw [if_neg hc]
      apply ih
      rw [List.nodup_append]
      refine ⟨h, List.nodup_singleton _, ?_⟩
      intro x hx hx2
      rw [List.mem_singleton] at hx2
      subst hx2
      exact hc hx

theorem uniqueModes_nodup (l : List MatchRecord) : (uniqueModes l).Nodup :=
  uniqueModes_nodup_aux l [] List.nodup_nil

theorem flatMap_filter_eq (g : String → List IntervalRow) (m : String) :
    ∀ modes : List String, (∀ m2 ∈ modes, ∀ row ∈ g m2, row.mode = m2) →
      modes.Nodup → m ∈ modes →
      (modes.flatMap g).filter (fun row => row.mode == m) = g m := by
  intro modes
  induction modes with
  | nil => intro _ _ hm; simp at hm
  | cons k ks ih =>
    intro hmode hnd hm
    rw [List.nodup_cons] at hnd
    simp only [List.flatMap_cons, List.filter_append]
    rcases List.mem_cons.mp hm with rfl | hm2
    · have h1 : (g m).filter (fun row => row.mode == m) = g m :=
        List.filter_eq_self.mpr (fun row hr => beq_iff_eq.mpr (hmode m (by simp) row hr))
      have h2 : (ks.flatMap g).filter (fun row => row.mode == m) = [] := by
        rw [List.filter_eq_nil_iff]
        intro row hr hb
        rw [List.mem_flatMap] at hr
        obtain ⟨k2, hk2, hrow⟩ := hr
        have hk2m : row.mode = k2 := hmode k2 (List.mem_cons_of_mem _ hk2) row hrow
        have hmm : row.mode = m := beq_iff_eq.mp hb
        have hk2eq : k2 = m := by rw [← hk2m, hmm]
        exact hnd.1 (hk2eq ▸ hk2)
      rw [h1, h2, List.append_nil]
    · have hkm : k ≠ m := fun h => hnd.1 (h ▸ hm2)
      have h1 : (g k).filter (fun row => row.mode == m) = [] := by
        rw [List.filter_eq_nil_iff]
        intro row hr hb
        exact hkm ((hmode k (by simp) row hr) ▸ beq_iff_eq.mp hb)
      rw [h1, List.nil_append]
      exact ih (fun m2 h2 => hmode m2 (List.mem_cons_of_mem _ h2)) hnd.2 hm2

theorem roundHalfEven_nearest (q : ℚ) : |q - (roundHalfEven q : ℚ)| ≤ 1 / 2 := by
  unfold roundHalfEven
  have h0 : (0 : ℚ) ≤ q - ⌊q⌋ := by
    have := Int.floor_le q; linarith
  have h1 : q - ⌊q⌋ < 1 := by
    have := Int.lt_floor_add_one q; linarith
  by_cases hlt : q - ⌊q⌋ < 1 / 2
  · rw [if_pos hlt, abs_le]; constructor <;> linarith
  · rw [if_neg hlt]
    by_cases hgt : 1 / 2 < q - ⌊q⌋
    · rw [if_pos hgt, abs_le]
      constructor <;> push_cast <;> linarith
    · rw [if_neg hgt]
      have heq : q - ⌊q⌋ = 1 / 2 := le_antisymm (not_lt.mp hgt) (not_lt.mp hlt)
      by_cases hev : ⌊q⌋ % 2 = 0
      · rw [if_pos hev, abs_le]; constructor <;> linarith
      · rw [if_neg hev, abs_le]
        constructor <;> push_cast <;> linarith

theorem sorted_lt_of_nodup {l : List Int}
    (hs : List.Sorted (fun a b : Int => a ≤ b) l) (hnd : l.Nodup) :
    List.Sorted (fun a b : Int => a < b) l :=
  (List.Pairwise.and hs hnd).imp (fun h => lt_of_le_of_ne h.1 h.2)

theorem sorted_gt_of_nodup {l : List Int}
    (hs : List.Sorted (fun a b : Int => b ≤ a) l) (hnd : l.Nodup) :
    List.Sorted (fun a b : Int => b < a) l :=
  (List.Pairwise.and hs hnd).imp (fun h => lt_of_le_of_ne h.1 (Ne.symm h.2))

theorem sorted_ts_filter (l : List MatchRecord) (m : String) :
    List.Sorted (fun a b : MatchRecord => a.timestamp ≤ b.timestamp)
      ((sortModeDate l).filter (fun r => r.mode == m)) := by
  have hs : List.Sorted modeDateLe (sortModeDate l) :=
    List.sorted_insertionSort modeDateLe l
  have hp : List.Pairwise modeDateLe ((sortModeDate l).filter (fun r => r.mode == m)) :=
    List.Pairwise.filter _ hs
  refine List.Pairwise.imp_of_mem ?_ hp
  intro a b ha hb hab
  have ham : a.mode = m := beq_iff_eq.mp (List.mem_filter.mp ha).2
  have hbm : b.mode = m := beq_iff_eq.mp (List.mem_filter.mp hb).2
  rcases hab with h | ⟨_, ht⟩
  · rw [ham, hbm] at h
    exact absurd h (lt_irrefl m)
  · exact ht

theorem foldl_if_append_eq_filter {α : Type} (p : α → Prop) [DecidablePred p] :
    ∀ (l acc : List α),
      l.foldl (fun acc r => if p r then acc ++ [r] else acc) acc
        = acc ++ l.filter (fun r => decide (p r)) := by
  intro l
  induction l with
  | nil => intro acc; simp
  | cons a l ih =>
    intro acc
    simp only [List.foldl_cons, List.filter_cons]
    by_cases hp : p a
    · rw [if_pos hp, ih]
      simp [hp, List.append_assoc]
    · rw [if_neg hp, ih]
      simp [hp]

theorem selectArchives_eq_filter (refs : List ArchiveRef) (start : Date) :
    selectArchives refs start = refs.filter
      (fun r => decide (start.year < r.year ∨ (r.year = start.year ∧ start.month ≤ r.month))) := by
  unfold selectArchives
  simpa using foldl_if_append_eq_filter
    (fun r => start.year < r.year ∨ (r.year = start.year ∧ start.month ≤ r.month)) refs []

/-- Inversion of a successful normalization: the emitted record's timestamp
is on or after the cutoff, the raw time class is one of the four
recognized ones, and the mode name is its capitalization plus the variant
suffix exactly when the record is a chess960 one. -/
theorem normalize_some_inv (u : String) (ts : Int) (g : RawGame) (r : MatchRecord)
    (h : normalize u ts g = some r) :
    ts ≤ r.timestamp ∧
    ∃ tc, g.time_class = some tc ∧ tc ∈ ["rapid", "blitz", "bullet", "daily"] ∧
      r.mode = pyCapitalize tc ++ (if r.is960 then "960" else "") := by
  unfold normalize at h
  split at h
  · exact absurd h (by simp)
  · next hend =>
    split at h
    · exact absurd h (by simp)
    · next tc htc =>
      split at h
      · next hmem =>
        injection h with h2
        subst h2
        exact ⟨not_lt.mp hend, tc, htc, hmem, rfl⟩
      · exact absurd h (by simp)

/-! ### Claim theorems -/

/-- C2: the outcome classifier realizes the fixed table: `"win"` maps to
Win; the six listed codes map to Draw; the four listed codes map to Loss;
every string outside the eleven known codes maps to Draw (so the function
is total over all strings); and the four quoted instances hold. -/
theorem classify_table :
    classify "win" = "Win" ∧
    (∀ s ∈ ["agreed", "repetition", "stalemate", "insufficient_material",
        "50move", "timevsinsufficientmaterial"], classify s = "Draw") ∧
    (∀ s ∈ ["checkmated", "resigned", "timeout", "abandoned"], classify s = "Loss") ∧
    (∀ s : String,
      s ∉ ["win", "agreed", "repetition", "stalemate", "insufficient_material",
        "50move", "timevsinsufficientmaterial", "checkmated", "resigned", "timeout",
        "abandoned"] → classify s = "Draw") ∧
    classify "resigned" = "Loss" ∧ classify "stalemate" = "Draw" ∧
    classify "unknown_code" = "Draw" := by
  refine ⟨by decide, by decide, by decide, ?_, by decide, by decide, by decide⟩
  intro s hs
  have hA : s ∉ ["win", "agreed", "repetition", "stalemate", "insufficient_material",
      "50move", "timevsinsufficientmaterial"] := by
    intro h
    apply hs
    revert h
    simp only [List.mem_cons, List.not_mem_nil, or_false]
    tauto
  have hB : s ∉ ["checkmated", "resigned", "timeout", "abandoned"] := by
    intro h
    apply hs
    revert h
    simp only [List.mem_cons, List.not_mem_nil, or_false]
    tauto
  unfold classify
  rw [if_neg hA, if_neg hB]

/-- C2 witness: the general table theorem applied at the draw code
`"timevsinsufficientmaterial"` and at the unknown code `"unknown_code"`. -/
theorem classify_table_instance :
    ("timevsinsufficientmaterial" ∈ ["agreed", "repetition", "stalemate",
        "insufficient_material", "50move", "timevsinsufficientmaterial"] ∧
      "unknown_code" ∉ ["win", "agreed", "repetition", "stalemate", "insufficient_material",
        "50move", "timevsinsufficientmaterial", "checkmated", "resigned", "timeout",
        "abandoned"]) ∧
    classify "timevsinsufficientmaterial" = "Draw" ∧ classify "unknown_code" = "Draw" :=
  ⟨⟨by decide, by decide⟩,
    classify_table.2.1 "timevsinsufficientmaterial" (by decide),
    classify_table.2.2.2.1 "unknown_code" (by decide)⟩

/-- C5: the archive selector returns exactly the order-preserving
subsequence of references whose (year, month) is at or after the cutoff,
comparing year first; with cutoff (2025, 11) and references (2025, 10),
(2025, 11), (2025, 12), (2026, 1), exactly the last three are selected. -/
theorem select_archives_correct :
    (∀ (refs : List ArchiveRef) (start : Date),
      selectArchives refs start = refs.filter
        (fun r => decide (start.year < r.year ∨ (r.year = start.year ∧ start.month ≤ r.month)))) ∧
    (∀ (refs : List ArchiveRef) (start : Date), (selectArchives refs start).Sublist refs) ∧
    (∀ (refs : List ArchiveRef) (start : Date) (r : ArchiveRef),
      r ∈ selectArchives refs start ↔
        r ∈ refs ∧ (start.year < r.year ∨ (r.year = start.year ∧ start.month ≤ r.month))) ∧
    selectArchives [⟨2025, 10⟩, ⟨2025, 11⟩, ⟨2025, 12⟩, ⟨2026, 1⟩] ⟨2025, 11, 1⟩
      = [⟨2025, 11⟩, ⟨2025, 12⟩, ⟨2026, 1⟩] := by
  refine ⟨selectArchives_eq_filter, ?_, ?_, by decide⟩
  · intro refs start
    rw [selectArchives_eq_filter]
    exact List.filter_sublist refs
  · intro refs start r
    rw [selectArchives_eq_filter, List.mem_filter]
    simp only [decide_eq_true_eq]

/-- C9: a raw match with no rules field behaves exactly as if it declared
standard chess: the normalization decision is identical to the defaulted
one (so a missing rules field never by itself causes a discard or error),
and any emitted record is standard, with the unsuffixed capitalized time
class as its mode. -/
theorem missing_rules_default (u : String) (ts : Int) (g : RawGame)
    (h : g.rules = none) :
    normalize u ts g = normalize u ts { g with rules := some "chess" } ∧
    ∀ r, normalize u ts g = some r →
      r.is960 = false ∧ ∃ tc, g.time_class = some tc ∧ r.mode = pyCapitalize tc := by
  constructor
  · unfold normalize
    rw [h]
    rfl
  · intro r hr
    unfold normalize at hr
    rw [h] at hr
    split at hr
    · exact absurd hr (by simp)
    · split at hr
      · exact absurd hr (by simp)
      · next tc htc =>
        split at hr
        · injection hr with h2
          subst h2
          refine ⟨rfl, tc, htc, ?_⟩
          show pyCapitalize tc ++ "" = pyCapitalize tc
          exact String.append_empty _
        · exact absurd hr (by simp)

/-- C9 witness: the rules-defaulting theorem applied to a concrete rapid
game carrying no rules field, at the record it emits. -/
theorem missing_rules_instance :
    c9Game.rules = none ∧
    normalize "kxrook" 0 c9Game = normalize "kxrook" 0 { c9Game with rules := some "chess" } ∧
    (c9rec.is960 = false ∧ ∃ tc, c9Game.time_class = some tc ∧ c9rec.mode = pyCapitalize tc) :=
  ⟨rfl, (missing_rules_default "kxrook" 0 c9Game rfl).1,
    (missing_rules_default "kxrook" 0 c9Game rfl).2 c9rec (by decide)⟩

/-- C10: the weekly bucket of a day is exactly the Monday on or before it
(pandas Monday-through-Sunday weeks labelled by their start): the bucket
is a Monday, lies at most six days before the day, is the unique such
Monday, and two records share a bucket exactly when one Monday-started
week contains both their dates. -/
theorem week_bucket_monday :
    (∀ d : Int, isMonday (weekStart d) ∧ weekStart d ≤ d ∧ d < weekStart d + 7) ∧
    (∀ d m : Int, (isMonday m ∧ m ≤ d ∧ d < m + 7) ↔ m = weekStart d) ∧
    (∀ r1 r2 : MatchRecord, recordWeek r1 = recordWeek r2 ↔
      ∃ m : Int, isMonday m ∧ m ≤ localDay r1 ∧ localDay r1 < m + 7 ∧
        m ≤ localDay r2 ∧ localDay r2 < m + 7) := by
  refine ⟨?_, ?_, ?_⟩
  · intro d
    unfold isMonday weekStart
    omega
  · intro d m
    unfold isMonday weekStart
    omega
  · intro r1 r2
    constructor
    · intro h
      refine ⟨recordWeek r1, ?_, ?_, ?_, ?_, ?_⟩
      · unfold isMonday recordWeek weekStart
        omega
      · unfold recordWeek weekStart
        omega
      · unfold recordWeek weekStart
        omega
      · rw [h]
        unfold recordWeek weekStart
        omega
      · rw [h]
        unfold recordWeek weekStart
        omega
    · rintro ⟨m, hm, h1, h2, h3, h4⟩
      unfold isMonday at hm
      unfold recordWeek weekStart
      omega

/-- C4 amended: an unparseable cutoff date makes the run return the empty
record collection with no archive index fetch and no month fetch at all. -/
theorem invalid_date_empty_run (u s : String) (env : FetchEnv)
    (h : parseDate s = none) :
    (processAllModes u s env).records = [] ∧
    (processAllModes u s env).indexFetched = false ∧
    (processAllModes u s env).monthsFetched = [] := by
  unfold processAllModes
  rw [h]
  exact ⟨rfl, rfl, rfl⟩

/-- C4 witness: the empty-run theorem applied to the unparseable cutoff
`"2025-13-01"` against an environment that does hold games. -/
theorem invalid_date_empty_run_instance :
    parseDate "2025-13-01" = none ∧
    ((processAllModes "kxrook" "2025-13-01" c4Env).records = [] ∧
     (processAllModes "kxrook" "2025-13-01" c4Env).indexFetched = false ∧
     (processAllModes "kxrook" "2025-13-01" c4Env).monthsFetched = []) :=
  ⟨by decide, invalid_date_empty_run "kxrook" "2025-13-01" c4Env (by decide)⟩

/-- C4 counterexample: there is no `ConfigError` channel — on the
unparseable cutoff `"2025-13-01"` the run returns exactly the same value
(an empty dataframe) as a successful run whose archive index lookup found
nothing, even though the environment holds a post-cutoff game that a valid
cutoff would surface; the caller cannot tell the two apart. -/
theorem config_error_cex :
    parseDate "2025-13-01" = none ∧
    (processAllModes "kxrook" "2025-13-01" c4Env).records
      = (processAllModes "kxrook" "2025-11-01" c4EnvNone).records ∧
    (processAllModes "kxrook" "2025-11-01" c4Env).records ≠ [] := by
  exact ⟨by decide, by decide, by decide⟩

/-- C3 amended: every record materialized by a run with a parsed cutoff
date has timestamp on or after the cutoff timestamp, and its mode is one
of the four recognized classes, carrying the `960` suffix exactly when the
record is a chess960 one; raw matches in any other time class are never
materialized. -/
theorem record_invariant (u s : String) (env : FetchEnv) (D : Date)
    (hD : parseDate s = some D) :
    ∀ r ∈ (processAllModes u s env).records,
      dateTimestamp D ≤ r.timestamp ∧
      r.mode ∈ (if r.is960 then ["Rapid960", "Blitz960", "Bullet960", "Daily960"]
                else ["Rapid", "Blitz", "Bullet", "Daily"]) := by
  intro r hr
  unfold processAllModes at hr
  split at hr
  · simp at hr
  · rename_i d hd
    rw [hD] at hd
    injection hd with hd2
    subst hd2
    split at hr
    · simp at hr
    · rename_i allRefs harch
      replace hr : r ∈ (selectArchives allRefs D).foldl
          (fun acc ref => acc ++ monthRecords env u (dateTimestamp D) ref) [] := hr
      rcases (mem_foldl_append (monthRecords env u (dateTimestamp D))
          (selectArchives allRefs D) [] r).mp hr with hnil | ⟨ref, _, href⟩
      · simp at hnil
      · unfold monthRecords at href
        split at href
        · simp at href
        · rw [List.mem_filterMap] at href
          obtain ⟨g, _, hnorm⟩ := href
          obtain ⟨hts, tc, _, hmem, hmode⟩ := normalize_some_inv u _ g r hnorm
          refine ⟨hts, ?_⟩
          rw [hmode]
          simp only [List.mem_cons, List.not_mem_nil, or_false] at hmem
          rcases hmem with rfl | rfl | rfl | rfl <;> cases hi : r.is960 <;> simp [hi] <;> decide

/-- C3 counterexample: a chess960 rapid game after the cutoff is
materialized with mode `"Rapid960"`, which is not in the four-element set
{Rapid, Blitz, Bullet, Daily} that the claim allows. -/
theorem record_mode_set_cex :
    (processAllModes "kxrook" "2025-11-01" c3Env).records.map (fun r => r.mode)
      = ["Rapid960"] ∧
    "Rapid960" ∉ (["Rapid", "Blitz", "Bullet", "Daily"] : List String) :=
  ⟨by decide, by decide⟩

/-- C3 witness: the amended invariant applied to the concrete run of
`c3Env`, at the record it materializes. -/
theorem record_invariant_instance :
    (parseDate "2025-11-01" = some ⟨2025, 11, 1⟩ ∧
      c3rec ∈ (processAllModes "kxrook" "2025-11-01" c3Env).records) ∧
    (dateTimestamp ⟨2025, 11, 1⟩ ≤ c3rec.timestamp ∧
      c3rec.mode ∈ (if c3rec.is960 then ["Rapid960", "Blitz960", "Bullet960", "Daily960"]
                    else ["Rapid", "Blitz", "Bullet", "Daily"])) :=
  ⟨⟨by decide, by decide⟩,
    record_invariant "kxrook" "2025-11-01" c3Env ⟨2025, 11, 1⟩ (by decide) c3rec (by decide)⟩

theorem map_fst_map_pair {α β : Type} (l : List α) (f : α → β) :
    ((l.map (fun d => (d, f d))).map Prod.fst) = l := by
  induction l with
  | nil => rfl
  | cons a l ih => simp [ih]

theorem modeList_nodup (b : Bool) : (modeList b).Nodup := by
  cases b <;> decide

theorem weekCellOf_eq_none_iff (df : List MatchRecord) (b : Bool) (w : Int) (m : String) :
    weekCellOf df b w m = none ↔ (weekModeData df b w m).length = 0 := by
  unfold weekCellOf
  split
  · next hlen =>
    constructor
    · intro h
      exact absurd h (by simp)
    · intro h
      exact absurd h (by omega)
  · next hlen =>
    constructor
    · intro _
      omega
    · intro _
      rfl

theorem filter_swap {α : Type} (l : List α) (p q : α → Bool) :
    (l.filter p).filter q = (l.filter q).filter p := by
  rw [List.filter_filter, List.filter_filter]
  exact List.filter_congr (fun a _ => Bool.and_comm _ _)

theorem cellGames_weeklyRowOf (df : List MatchRecord) (b : Bool) (w : Int) (m : String)
    (hm : m ∈ modeList b) :
    cellGames m (weeklyRowOf df b w) = (weekModeData df b w m).length := by
  unfold cellGames weeklyRowOf
  rw [lookup_map_self (weekCellOf df b w) m (modeList b) (modeList_nodup b) hm]
  unfold weekCellOf
  by_cases hlen : 0 < (weekModeData df b w m).length
  · rw [if_pos hlen]
  · rw [if_neg hlen]
    have h0 : (weekModeData df b w m).length = 0 := by omega
    rw [h0]

/-- C6: in the overall daily series, each day's two counts are the Win
filter and the non-Win filter of that day's records, and they sum to the
day's total record count; days appear in strictly ascending order. -/
theorem daily_stats_sum (df : List MatchRecord) :
    List.Sorted (fun x y : Int => x < y) ((dailyStats df).map Prod.fst) ∧
    ∀ e ∈ dailyStats df,
      e.2.1 = ((df.filter (fun r => localDay r == e.1)).filter
        (fun r => r.status == "Win")).length ∧
      e.2.2 = ((df.filter (fun r => localDay r == e.1)).filter
        (fun r => r.status != "Win")).length ∧
      e.2.1 + e.2.2 = (df.filter (fun r => localDay r == e.1)).length := by
  constructor
  · unfold dailyStats
    rw [map_fst_map_pair]
    apply sorted_lt_of_nodup
    · exact List.sorted_insertionSort _ _
    · exact ((List.perm_insertionSort _ _).symm).nodup (List.nodup_dedup _)
  · intro e he
    unfold dailyStats at he
    rw [List.mem_map] at he
    obtain ⟨d, _, rfl⟩ := he
    refine ⟨rfl, rfl, ?_⟩
    exact length_filter_add_not (df.filter (fun r => localDay r == d))
      (fun r => r.status == "Win")

/-- C6 witness: the daily-series theorem applied to a one-record history,
at the single emitted day. -/
theorem daily_stats_sum_instance :
    ((20000 : Int), 1, 0) ∈ dailyStats c6df ∧
    ((1 : Nat) = ((c6df.filter (fun r => localDay r == (20000 : Int))).filter
        (fun r => r.status == "Win")).length ∧
      (0 : Nat) = ((c6df.filter (fun r => localDay r == (20000 : Int))).filter
        (fun r => r.status != "Win")).length ∧
      1 + 0 = (c6df.filter (fun r => localDay r == (20000 : Int))).length) :=
  ⟨by decide, (daily_stats_sum c6df).2 ((20000 : Int), 1, 0) (by decide)⟩

/-- C7: in the weekly table, the week labels are strictly descending (most
recent first); for each recognized mode the cell game counts summed over
all emitted weeks equal the total variant-filtered record count of that
mode; and every emitted row carries one entry per recognized mode, the
entry being the explicit no-data marker exactly when the (week, mode) pair
has no games. -/
theorem weekly_stats_correct (df : List MatchRecord) (b : Bool) :
    List.Sorted (fun x y : Int => y < x) ((weeklyStats df b).map (fun row => row.week)) ∧
    (∀ m ∈ modeList b,
      ((weeklyStats df b).map (fun row => cellGames m row)).sum
        = ((df.filter (fun r => r.is960 == b)).filter (fun r => r.mode == m)).length) ∧
    (∀ row ∈ weeklyStats df b,
      row.cells.map Prod.fst = modeList b ∧
      ∀ m c, (m, c) ∈ row.cells →
        (c = none ↔ (weekModeData df b row.week m).length = 0)) := by
  refine ⟨?_, ?_, ?_⟩
  · unfold weeklyStats
    rw [List.map_map]
    have hcomp : ((fun row : WeeklyRow => row.week) ∘ weeklyRowOf df b) = id := rfl
    rw [hcomp, List.map_id]
    exact sorted_gt_of_nodup (List.sorted_insertionSort _ _)
      (((List.perm_insertionSort _ _).symm).nodup (List.nodup_dedup _))
  · intro m hm
    unfold weeklyStats
    rw [List.map_map]
    have h1 : ((fun row => cellGames m row) ∘ weeklyRowOf df b)
        = fun w => (weekModeData df b w m).length := by
      funext w
      exact cellGames_weeklyRowOf df b w m hm
    rw [h1]
    have h2 : ∀ w : Int, weekModeData df b w m
        = ((df.filter (fun r => r.is960 == b)).filter (fun r => r.mode == m)).filter
            (fun r => recordWeek r == w) := by
      intro w
      unfold weekModeData
      exact filter_swap _ _ _
    have h3 : (List.insertionSort (fun a b : Int => b ≤ a)
          (((df.filter (fun r => r.is960 == b)).map recordWeek).dedup)).map
          (fun w => (weekModeData df b w m).length)
        = (List.insertionSort (fun a b : Int => b ≤ a)
          (((df.filter (fun r => r.is960 == b)).map recordWeek).dedup)).map
          (fun w => (((df.filter (fun r => r.is960 == b)).filter
              (fun r => r.mode == m)).filter (fun r => recordWeek r == w)).length) :=
      List.map_congr_left (fun w _ => by rw [h2 w])
    rw [h3]
    apply sum_filter_key recordWeek
    · exact ((List.perm_insertionSort _ _).symm).nodup (List.nodup_dedup _)
    · intro a ha
      rw [(List.perm_insertionSort _ _).mem_iff, List.mem_dedup]
      exact List.mem_map_of_mem recordWeek (List.mem_filter.mp ha).1
  · intro row hrow
    unfold weeklyStats at hrow
    rw [List.mem_map] at hrow
    obtain ⟨w, _, rfl⟩ := hrow
    constructor
    · exact map_fst_map_pair (modeList b) (weekCellOf df b w)
    · intro m c hmc
      replace hmc : (m, c) ∈ (modeList b).map (fun m2 => (m2, weekCellOf df b w m2)) := hmc
      rw [List.mem_map] at hmc
      obtain ⟨m2, _, heq⟩ := hmc
      have hm2 : m2 = m := congrArg Prod.fst heq
      have hc : weekCellOf df b w m2 = c := congrArg Prod.snd heq
      subst hm2
      rw [← hc]
      exact weekCellOf_eq_none_iff df b w m2

/-- C7 witness: the weekly theorem applied to a one-record history at the
Blitz column. -/
theorem weekly_stats_instance :
    ("Blitz" ∈ modeList false) ∧
    ((weeklyStats c7df false).map (fun row => cellGames "Blitz" row)).sum
      = ((c7df.filter (fun r => r.is960 == false)).filter
          (fun r => r.mode == "Blitz")).length :=
  ⟨by decide, (weekly_stats_correct c7df false).2.1 "Blitz" (by decide)⟩

theorem boxplotData_mem_inv (df : List MatchRecord) (b : Bool) (m : String) (s : List Int)
    (h : (m, s) ∈ boxplotData df b) :
    m ∈ boxModeList b ∧
    0 < ((df.filter (fun r => r.is960 == b)).filter (fun r => r.mode == m)).length ∧
    s = ((df.filter (fun r => r.is960 == b)).filter (fun r => r.mode == m)).map
      (fun r => r.rating) := by
  unfold boxplotData at h
  rw [List.mem_filterMap] at h
  obtain ⟨m2, hm2, heq⟩ := h
  by_cases hlen : 0 < ((df.filter (fun r => r.is960 == b)).filter
      (fun r => r.mode == m2)).length
  · rw [if_pos hlen] at heq
    injection heq with heq2
    have h1 : m2 = m := congrArg Prod.fst heq2
    have h2 :
        ((df.filter (fun r => r.is960 == b)).filter (fun r => r.mode == m2)).map
          (fun r => r.rating) = s := congrArg Prod.snd heq2
    subst h1
    exact ⟨hm2, hlen, h2.symm⟩
  · rw [if_neg hlen] at heq
    exact absurd heq (by simp)

theorem boxplotData_mem_intro (df : List MatchRecord) (b : Bool) (m : String)
    (hm : m ∈ boxModeList b)
    (hlen : 0 < ((df.filter (fun r => r.is960 == b)).filter (fun r => r.mode == m)).length) :
    (m, ((df.filter (fun r => r.is960 == b)).filter (fun r => r.mode == m)).map
      (fun r => r.rating)) ∈ boxplotData df b := by
  unfold boxplotData
  rw [List.mem_filterMap]
  exact ⟨m, hm, by rw [if_pos hlen]⟩

/-- C8: a mode appears in the rating-distribution output exactly when it
has at least one record in the variant-filtered collection (stated for
collections whose variant-filtered records all carry recognized mode
names, as every normalizer output does); an appearing mode's sample is the
full, nonempty rating list of its filtered records; and a mode with zero
filtered records is omitted entirely, while the weekly table still
carries an explicit entry for it in every emitted row. -/
theorem boxplot_modes_iff (df : List MatchRecord) (b : Bool)
    (h : ∀ r ∈ df, r.is960 = b → r.mode ∈ boxModeList b) :
    (∀ m : String, (∃ s, (m, s) ∈ boxplotData df b) ↔
      ∃ r ∈ df.filter (fun r => r.is960 == b), r.mode = m) ∧
    (∀ m s, (m, s) ∈ boxplotData df b →
      s = ((df.filter (fun r => r.is960 == b)).filter (fun r => r.mode == m)).map
        (fun r => r.rating) ∧ s ≠ []) ∧
    (∀ m ∈ boxModeList b,
      ((df.filter (fun r => r.is960 == b)).filter (fun r => r.mode == m)) = [] →
      (∀ s, (m, s) ∉ boxplotData df b) ∧
      ∀ row ∈ weeklyStats df b, ∃ c, (m, c) ∈ row.cells) := by
  refine ⟨?_, ?_, ?_⟩
  · intro m
    constructor
    · rintro ⟨s, hs⟩
      obtain ⟨_, hlen, _⟩ := boxplotData_mem_inv df b m s hs
      obtain ⟨r, hr⟩ := List.exists_mem_of_ne_nil _ (List.length_pos.mp hlen)
      rw [List.mem_filter] at hr
      exact ⟨r, hr.1, beq_iff_eq.mp hr.2⟩
    · rintro ⟨r, hrf, hrm⟩
      have hmem : m ∈ boxModeList b := by
        rw [List.mem_filter] at hrf
        have h960 : r.is960 = b := by
          have := hrf.2
          simpa using this
        rw [← hrm]
        exact h r hrf.1 h960
      have hlen : 0 < ((df.filter (fun r => r.is960 == b)).filter
          (fun r => r.mode == m)).length := by
        apply List.length_pos.mpr
        apply List.ne_nil_of_mem
        show r ∈ _
        exact List.mem_filter.mpr ⟨hrf, beq_iff_eq.mpr hrm⟩
      exact ⟨_, boxplotData_mem_intro df b m hmem hlen⟩
  · intro m s hs
    obtain ⟨_, hlen, hmap⟩ := boxplotData_mem_inv df b m s hs
    refine ⟨hmap, ?_⟩
    apply List.length_pos.mp
    rw [hmap, List.length_map]
    exact hlen
  · intro m hm hempty
    constructor
    · intro s hs
      obtain ⟨_, hlen, _⟩ := boxplotData_mem_inv df b m s hs
      rw [hempty] at hlen
      simp at hlen
    · intro row hrow
      have hmL : m ∈ modeList b := by
        unfold boxModeList at hm
        unfold modeList
        cases b
        · rw [if_neg (by simp)] at hm
          rw [if_neg (by simp)]
          simp only [List.mem_cons, List.not_mem_nil, or_false] at hm ⊢
          tauto
        · rw [if_pos rfl] at hm
          rw [if_pos rfl]
          simp only [List.mem_cons, List.not_mem_nil, or_false] at hm ⊢
          tauto
      unfold weeklyStats at hrow
      rw [List.mem_map] at hrow
      obtain ⟨w, _, rfl⟩ := hrow
      exact ⟨weekCellOf df b w m,
        List.mem_map_of_mem (fun m2 => (m2, weekCellOf df b w m2)) hmL⟩

/-- C8 witness: the distribution theorem applied to a one-record history,
at the Blitz mode. -/
theorem boxplot_modes_instance :
    (∀ r ∈ c8df, r.is960 = false → r.mode ∈ boxModeList false) ∧
    ((∃ s, ("Blitz", s) ∈ boxplotData c8df false) ↔
      ∃ r ∈ c8df.filter (fun r => r.is960 == false), r.mode = "Blitz") :=
  ⟨by decide, (boxplot_modes_iff c8df false (by decide)).1 "Blitz"⟩

theorem modeMilestones_mode (m : String) (rs : List MatchRecord) (N : Nat) :
    ∀ row ∈ modeMilestones m rs N, row.mode = m := by
  intro row hrow
  unfold modeMilestones at hrow
  rw [List.mem_map] at hrow
  obtain ⟨c, _, rfl⟩ := hrow
  rfl

theorem map_games_map_mk (l : List Nat) (f : Nat → IntervalRow)
    (hf : ∀ c, (f c).games = c) : (l.map f).map (fun row => row.games) = l := by
  induction l with
  | nil => rfl
  | cons a l ih => simp [hf, ih]

theorem modeMilestones_map_games (m : String) (rs : List MatchRecord) (N : Nat) :
    (modeMilestones m rs N).map (fun row => row.games) = checkpoints N rs.length := by
  unfold modeMilestones
  exact map_games_map_mk _ _ (fun c => rfl)

theorem mem_checkpoints_iff (N L : Nat) (hN : 0 < N) (c : Nat) :
    c ∈ checkpoints N L ↔ ∃ k, 1 ≤ k ∧ c = k * N ∧ c ≤ L := by
  unfold checkpoints
  rw [List.mem_map]
  constructor
  · rintro ⟨i, hi, rfl⟩
    rw [List.mem_range] at hi
    refine ⟨i + 1, by omega, rfl, ?_⟩
    exact (Nat.le_div_iff_mul_le hN).mp (by omega)
  · rintro ⟨k, hk1, rfl, hkL⟩
    refine ⟨k - 1, ?_, ?_⟩
    · rw [List.mem_range]
      have hk2 : k ≤ L / N := (Nat.le_div_iff_mul_le hN).mpr hkL
      omega
    · have hk : k - 1 + 1 = k := by omega
      rw [hk]

theorem modeMilestones_rows (m : String) (rs : List MatchRecord) (N : Nat) :
    ∀ row ∈ modeMilestones m rs N,
      row.avgRating = roundHalfEven (ratingMean (rs.take row.games)) ∧
      |ratingMean (rs.take row.games) - (row.avgRating : ℚ)| ≤ 1 / 2 ∧
      row.winPct = (((rs.take row.games).filter (fun r => r.status == "Win")).length : ℚ)
        / (row.games : ℚ) * 100 := by
  intro row hrow
  unfold modeMilestones at hrow
  rw [List.mem_map] at hrow
  obtain ⟨c, _, rfl⟩ := hrow
  exact ⟨rfl, roundHalfEven_nearest _, rfl⟩

/-- C1: for every mode of the variant-filtered collection, with interval
N > 0: that mode's records are sorted ascending by timestamp; the interval
table's rows for the mode are exactly its milestones; milestones sit
exactly at the checkpoints N, 2N, … not exceeding the mode's game count
(none below N games); each reports the mean rating of the first c sorted
records rounded to a nearest integer and the win percentage over them; and
25 records with interval 10 give checkpoints 10 and 20 only. -/
theorem interval_milestones_correct (df : List MatchRecord) (b : Bool) (N : Nat) (m : String)
    (hN : 0 < N)
    (hm : m ∈ uniqueModes (sortModeDate (df.filter (fun r => r.is960 == b)))) :
    c1Prop df b N m := by
  unfold c1Prop
  refine ⟨?_, ?_, ?_, ?_, ?_, ?_, ?_⟩
  · exact sorted_ts_filter _ m
  · unfold intervalStats
    exact flatMap_filter_eq (fun m2 => modeMilestones m2 (perModeSorted df b m2) N) m
      (uniqueModes (sortModeDate (df.filter (fun r => r.is960 == b))))
      (fun m2 _ => modeMilestones_mode m2 _ N) (uniqueModes_nodup _) hm
  · exact modeMilestones_map_games m _ N
  · intro c
    exact mem_checkpoints_iff N _ hN c
  · exact modeMilestones_rows m _ N
  · intro hlen
    unfold modeMilestones checkpoints
    rw [Nat.div_eq_of_lt hlen]
    rfl
  · intro h25
    rw [modeMilestones_map_games m _ 10, h25]
    decide

/-- C1 witness: the interval theorem applied to a four-record history with
interval 2, at the Blitz mode. -/
theorem interval_milestones_instance :
    (0 < 2 ∧ "Blitz" ∈ uniqueModes (sortModeDate (c1df.filter (fun r => r.is960 == false)))) ∧
    c1Prop c1df false 2 "Blitz" :=
  ⟨⟨by decide, by decide⟩,
    interval_milestones_correct c1df false 2 "Blitz" (by decide) (by decide)⟩

end Chesscom
